import Mathlib

/-!
Verification development for libercapital/gotag-validator (src/v2/validator.go).

The file gives a shallow embedding of the v2 validator:
  * a model of Go's time.Parse restricted to the nine layouts the source
    registers in `layouts`, including Go's layout-chunk semantics (a bare
    trailing Z in a layout string is a literal character, not a zone
    marker; a zero-padded field requires exactly two digits; an hour field
    "15" accepts one or two digits; a seconds field accepts an implicit
    fractional part when the layout has none);
  * the cross-field date rule `validateDatetimeGTE` and its sibling-field
    lookup through reflection (a missing field yields the invalid-value
    string, which parses under no layout);
  * the decimal rule `validDecimalValue` as the anchored regular expression
    of the source;
  * the field-name resolver `getJsonTagNameFromPropertyName` over struct
    field metadata (json, then param, then query tag, then the raw
    identifier);
  * the reason synthesis of `validate` for each rule tag
    (`translateReason`);
  * the dispatcher `Validate` over the runtime kind of its argument,
    with the nil-interface panic modelled as a distinguished outcome.

Not modelled: the external go-playground engine that discovers violations,
the locale translator, and the RFC3339 fast path's extra acceptance of a
lowercase zone marker 'z' (an edge the generic layout parser of Go rejects).
-/

namespace GotagValidator

/-- One entry of the externally visible error list (struct `InvalidParam`). -/
structure InvalidParam where
  name : String
  reason : String
  deriving DecidableEq, Repr

/-- A problem-details value as the source builds it: `problem.New` with a
status, an optional title, and an optional custom invalid_params list. -/
structure ProblemJSON where
  status : Nat
  title : String := ""
  invalidParams : Option (List InvalidParam) := none
  deriving DecidableEq, Repr

/-- `cannotBeEmptyArrayProblemJSON = problem.New(Status(400), Title("Cannot be empty."))`. -/
def cannotBeEmptyArrayProblemJSON : ProblemJSON :=
  { status := 400, title := "Cannot be empty." }

/-! ## Go time.Parse, restricted to the layouts of the source -/

/-- Numeric value of an ASCII digit. -/
def digitVal (c : Char) : Nat := c.toNat - 48

/-- Go's getnum with fixed = true: exactly two digits (a zero-padded field). -/
def getnum2 : List Char → Option (Nat × List Char)
  | c1 :: c2 :: rest =>
    if c1.isDigit && c2.isDigit then some (digitVal c1 * 10 + digitVal c2, rest) else none
  | _ => none

/-- Go's getnum with fixed = false: one or two digits (the hour field "15"). -/
def getnum12 : List Char → Option (Nat × List Char)
  | c1 :: c2 :: rest =>
    if c1.isDigit then
      if c2.isDigit then some (digitVal c1 * 10 + digitVal c2, rest)
      else some (digitVal c1, c2 :: rest)
    else none
  | [c1] => if c1.isDigit then some (digitVal c1, []) else none
  | [] => none

/-- The four-digit year field "2006". -/
def getnum4 : List Char → Option (Nat × List Char)
  | c1 :: c2 :: c3 :: c4 :: rest =>
    if c1.isDigit && c2.isDigit && c3.isDigit && c4.isDigit then
      some (((digitVal c1 * 10 + digitVal c2) * 10 + digitVal c3) * 10 + digitVal c4, rest)
    else none
  | _ => none

/-- Nanoseconds from a run of fractional digits, as Go's parseNanoseconds
scales them: the first nine digits, padded with zeros to nine places. -/
def nsecOfDigits (ds : List Char) : Nat :=
  ((ds.take 9) ++ List.replicate (9 - ds.length) '0').foldl (fun a c => a * 10 + digitVal c) 0

/-- One chunk of a Go layout string, as nextStdChunk cuts it. -/
inductive Chunk where
  | lit : Char → Chunk
  | year4
  | month2
  | day2
  | hour12
  | minute2
  | second2
  | frac3
  | isoColonTZ
  deriving DecidableEq, Repr

/-- The fields Go's parse accumulates while walking the layout. -/
structure ParseAcc where
  year : Nat := 0
  month : Nat := 1
  day : Nat := 1
  hour : Nat := 0
  minute : Nat := 0
  second : Nat := 0
  nsec : Nat := 0
  offset : Int := 0
  deriving DecidableEq, Repr

/-- Consume one layout chunk from the input. `peek` is the next chunk of the
remaining layout: Go consumes an implicit fractional second after a seconds
field only when the layout itself has no fraction chunk next. -/
def stepChunk (ck : Chunk) (peek : Option Chunk) (cs : List Char) (acc : ParseAcc) :
    Option (List Char × ParseAcc) :=
  match ck with
  | .lit c =>
    match cs with
    | d :: cs' => if d == c then some (cs', acc) else none
    | [] => none
  | .year4 =>
    match getnum4 cs with
    | some (n, cs') => some (cs', { acc with year := n })
    | none => none
  | .month2 =>
    match getnum2 cs with
    | some (n, cs') => some (cs', { acc with month := n })
    | none => none
  | .day2 =>
    match getnum2 cs with
    | some (n, cs') => some (cs', { acc with day := n })
    | none => none
  | .hour12 =>
    match getnum12 cs with
    | some (n, cs') => some (cs', { acc with hour := n })
    | none => none
  | .minute2 =>
    match getnum2 cs with
    | some (n, cs') => some (cs', { acc with minute := n })
    | none => none
  | .second2 =>
    match getnum2 cs with
    | none => none
    | some (n, cs') =>
      if peek == some .frac3 then some (cs', { acc with second := n })
      else
        match cs' with
        | c :: d :: cs'' =>
          if (c == '.' || c == ',') && d.isDigit then
            some ((d :: cs'').dropWhile Char.isDigit,
              { acc with second := n, nsec := nsecOfDigits ((d :: cs'').takeWhile Char.isDigit) })
          else some (cs', { acc with second := n })
        | _ => some (cs', { acc with second := n })
  | .frac3 =>
    match cs with
    | c :: a :: b :: e :: cs' =>
      if (c == '.' || c == ',') && a.isDigit && b.isDigit && e.isDigit then
        some (cs', { acc with nsec := (digitVal a * 100 + digitVal b * 10 + digitVal e) * 1000000 })
      else none
    | _ => none
  | .isoColonTZ =>
    match cs with
    | 'Z' :: cs' => some (cs', { acc with offset := 0 })
    | sgn :: h1 :: h2 :: col :: m1 :: m2 :: cs' =>
      if (sgn == '+' || sgn == '-') && h1.isDigit && h2.isDigit &&
          col == ':' && m1.isDigit && m2.isDigit then
        let off : Int := ((digitVal h1 * 10 + digitVal h2) * 3600 : Nat) +
          ((digitVal m1 * 10 + digitVal m2) * 60 : Nat)
        some (cs', { acc with offset := if sgn == '+' then off else -off })
      else none
    | _ => none

/-- Walk a layout over the input; trailing unconsumed input is an error
("extra text" in Go). -/
def runChunks : List Chunk → List Char → ParseAcc → Option ParseAcc
  | [], [], acc => some acc
  | [], _ :: _, _ => none
  | ck :: rest, cs, acc =>
    match stepChunk ck rest.head? cs acc with
    | some (cs', acc') => runChunks rest cs' acc'
    | none => none

def isLeap (y : Nat) : Bool :=
  y % 4 == 0 && (y % 100 != 0 || y % 400 == 0)

/-- Go's daysIn. -/
def daysInMonth (m y : Nat) : Nat :=
  if m == 2 then (if isLeap y then 29 else 28)
  else if m == 4 || m == 6 || m == 9 || m == 11 then 30
  else 31

/-- Days from 1970-01-01 to year-month-day in the proleptic Gregorian
calendar (the civil-from-days inverse Go's date arithmetic realizes). -/
def daysFromCivil (y m d : Int) : Int :=
  let yy := if m <= 2 then y - 1 else y
  let era := (if 0 <= yy then yy else yy - 399) / 400
  let yoe := yy - era * 400
  let mp := (m + 9) % 12
  let doy := (153 * mp + 2) / 5 + d - 1
  let doe := yoe * 365 + yoe / 4 - yoe / 100 + doy
  era * 146097 + doe - 719468

/-- An absolute instant as Go's time.Time carries it once parsed: seconds
since the Unix epoch and a nanosecond part. `.UTC()` only changes the
presentation location, not these fields. -/
structure GoTime where
  sec : Int
  nsec : Nat
  deriving DecidableEq, Repr

/-- Go's Time.Before on wall-clock times. -/
def GoTime.before (t u : GoTime) : Bool :=
  t.sec < u.sec || (t.sec == u.sec && t.nsec < u.nsec)

/-- Range checks Go's parse performs (month, day-of-month against the
calendar, hour, minute, second) and the instant the parsed fields denote. -/
def finishParse (acc : ParseAcc) : Option GoTime :=
  if acc.month < 1 || 12 < acc.month then none
  else if acc.day < 1 || daysInMonth acc.month acc.year < acc.day then none
  else if 23 < acc.hour || 59 < acc.minute || 59 < acc.second then none
  else some
    { sec := daysFromCivil (acc.year : Int) (acc.month : Int) (acc.day : Int) * 86400 +
        (acc.hour : Int) * 3600 + (acc.minute : Int) * 60 + (acc.second : Int) - acc.offset,
      nsec := acc.nsec }

/-- time.Parse of one layout: no zone information in the layout leaves the
default location, which parseToUTCTime passes as UTC (offset 0). -/
def goTimeParse (layout : List Chunk) (s : String) : Option GoTime :=
  match runChunks layout s.data { } with
  | some acc => finishParse acc
  | none => none

/-- The date chunk "2006-01-02" shared by every layout of the source. -/
def dateChunks : List Chunk :=
  [.year4, .lit '-', .month2, .lit '-', .day2]

/-- time.RFC3339 = "2006-01-02T15:04:05Z07:00" (the only layout with a zone
chunk: trailing "Z07:00" is an offset marker). -/
def defaultFormat : List Chunk :=
  dateChunks ++ [.lit 'T', .hour12, .lit ':', .minute2, .lit ':', .second2, .isoColonTZ]

/-- "2006-01-02T15:04Z": the bare Z is not followed by 07, so Go reads it as
a literal character — the input must end in Z and is taken as UTC. -/
def minuteZFormat : List Chunk :=
  dateChunks ++ [.lit 'T', .hour12, .lit ':', .minute2, .lit 'Z']

/-- DateTimeZeroFormat = "2006-01-02T15:04:05Z" (literal trailing Z). -/
def DateTimeZeroFormat : List Chunk :=
  dateChunks ++ [.lit 'T', .hour12, .lit ':', .minute2, .lit ':', .second2, .lit 'Z']

/-- MilisecondsFormat = "2006-01-02T15:04:05.000Z" (exactly three fractional
digits, then a literal Z). -/
def MilisecondsFormat : List Chunk :=
  dateChunks ++ [.lit 'T', .hour12, .lit ':', .minute2, .lit ':', .second2, .frac3, .lit 'Z']

/-- "2006-01-02T15:04:05". -/
def secondsBareFormat : List Chunk :=
  dateChunks ++ [.lit 'T', .hour12, .lit ':', .minute2, .lit ':', .second2]

/-- "2006-01-02 15:04". -/
def spaceMinuteFormat : List Chunk :=
  dateChunks ++ [.lit ' ', .hour12, .lit ':', .minute2]

/-- "2006-01-02 15:04:05". -/
def spaceSecondFormat : List Chunk :=
  dateChunks ++ [.lit ' ', .hour12, .lit ':', .minute2, .lit ':', .second2]

/-- "2006-01-02 15:04:05.000". -/
def spaceMilliFormat : List Chunk :=
  dateChunks ++ [.lit ' ', .hour12, .lit ':', .minute2, .lit ':', .second2, .frac3]

/-- "2006-01-02". -/
def dateOnlyFormat : List Chunk := dateChunks

/-- The layout list of the source, in source order. -/
def layouts : List (List Chunk) :=
  [defaultFormat, minuteZFormat, DateTimeZeroFormat, MilisecondsFormat,
   secondsBareFormat, spaceMinuteFormat, spaceSecondFormat, spaceMilliFormat,
   dateOnlyFormat]

/-- parseToUTCTime: each layout is tried in order; the first success is
returned already normalized to UTC; exhausting the list is an error. -/
def parseToUTCTime (s : String) : Option GoTime :=
  layouts.findSome? (fun l => goTimeParse l s)

/-! ## The cross-field date rule -/

/-- What reflect.Value.String() yields on the zero Value FieldByName returns
for a name that is not a field of the struct. -/
def invalidValueString : String := "<invalid Value>"

/-- The sibling field's string as validateDatetimeGTE reads it: the record is
the enclosing struct's (field name, string value) pairs; a missing name gives
the invalid-value string. -/
def siblingString (record : List (String × String)) (name : String) : String :=
  match record.find? (fun p => p.1 == name) with
  | some p => p.2
  | none => invalidValueString

/-- validateDatetimeGTE: parse the annotated field, then the named sibling;
fail closed on either parse error; otherwise fail only when the annotated
instant is before the sibling instant. -/
def validateDatetimeGTE (record : List (String × String)) (fieldValue param : String) : Bool :=
  match parseToUTCTime fieldValue with
  | none => false
  | some referenceField =>
    match parseToUTCTime (siblingString record param) with
    | none => false
    | some compareField => !(referenceField.before compareField)

/-! ## The decimal rule -/

/-- The \d{2}$ tail of the decimal regular expression. -/
def twoDigitsM : List Char → Bool
  | [c1, c2] => c1.isDigit && c2.isDigit
  | _ => false

/-- The (\d*\.)?\d{2} alternative with the group present: digits up to the
first dot, then exactly two digits. -/
def dottedMatch : List Char → Bool
  | [] => false
  | c :: cs => if c == '.' then twoDigitsM cs else c.isDigit && dottedMatch cs

/-- Anchored match of regexForValidDecimalValues = "^(\\d*\\.)?\\d{2}$". -/
def decimalRegexMatch (cs : List Char) : Bool :=
  twoDigitsM cs || dottedMatch cs

/-- validDecimalValue: the field's string against the decimal regex. -/
def validDecimalValue (s : String) : Bool :=
  decimalRegexMatch s.data

/-! ## The field-name resolver -/

/-- The tag metadata of one struct field; an absent tag key reads as "" from
reflect.StructTag.Get. -/
structure GoStructField where
  name : String
  jsonTag : String := ""
  paramTag : String := ""
  queryTag : String := ""
  deriving DecidableEq, Repr

/-- Go's strings.Split for a one-character separator. -/
def splitOnChar (sep : Char) : List Char → List (List Char)
  | [] => [[]]
  | c :: cs =>
    let r := splitOnChar sep cs
    if c == sep then [] :: r
    else
      match r with
      | h :: t => (c :: h) :: t
      | [] => [[c]]

/-- Resolution of one identifier, as the loop body of
getJsonTagNameFromPropertyName does it: FieldByName (a missing field is the
zero StructField, every tag ""), then json tag, param tag, query tag, raw
identifier — first non-empty wins — and finally everything before the first
comma of the winning tag. -/
def resolveOne (fields : List GoStructField) (ident : String) : String :=
  let f := (fields.find? (fun g => g.name == ident)).getD
    { name := "", jsonTag := "", paramTag := "", queryTag := "" }
  let tag :=
    if f.jsonTag != "" then f.jsonTag
    else if f.paramTag != "" then f.paramTag
    else if f.queryTag != "" then f.queryTag
    else ident
  String.mk (tag.data.takeWhile (fun c => c != ','))

/-- getJsonTagNameFromPropertyName: the rule parameter is split on spaces and
each identifier resolved on the record type. -/
def getJsonTagNameFromPropertyName (fields : List GoStructField) (param : String) : List String :=
  (splitOnChar ' ' param.data).map (fun cs => resolveOne fields (String.mk cs))

/-! ## Reason synthesis -/

/-- Go's strings.Join. -/
def goStringsJoin (sep : String) : List String → String
  | [] => ""
  | [a] => a
  | a :: rest => a ++ sep ++ goStringsJoin sep rest

def mustBeGteMessage : String := " must be greater than or equal "
def decimal2placesMessage : String := " must be in a decimal value format as %.2f"
def documentMessage : String := " must be a valid cpf or cnpj"
def zipCodeMessage : String := " must be a valid br zip code"
def isoMessage : String := " must be a YYYY-MM-DD format date"

/-- The parts of one go-playground validator.FieldError the translation
switch of `validate` reads: the failed rule tag, the reported field name,
the raw rule parameter, and what the delegated default translator would
say for it. -/
structure ValidationErrorView where
  tag : String
  field : String
  param : String
  translated : String
  deriving DecidableEq, Repr

/-- The reason branch of `validate` for one violation: custom rules look up
the caller message; the two required_* rules and the date rule synthesize a
message naming resolved sibling fields; the four format rules append a fixed
message; anything else delegates to the default translator. -/
def translateReason (messageErrors : List (String × String))
    (fields : List GoStructField) (ve : ValidationErrorView) : String :=
  if "custom".data.isPrefixOf ve.tag.data then
    match messageErrors.find? (fun p => p.1 == ve.tag) with
    | some p => p.2
    | none => ""
  else if ve.tag == "required_without_all" then
    "at least one of these fields are required: " ++ ve.field ++ ", " ++
      goStringsJoin ", " (getJsonTagNameFromPropertyName fields ve.param)
  else if ve.tag == "required_with" then
    ve.field ++ " is required if one of these fields are filled: " ++
      goStringsJoin ", " (getJsonTagNameFromPropertyName fields ve.param)
  else if ve.tag == "strdatetimegte" then
    ve.field ++ mustBeGteMessage ++
      ((getJsonTagNameFromPropertyName fields ve.param).headD "")
  else if ve.tag == "document" then ve.field ++ documentMessage
  else if ve.tag == "decimal2places" then ve.field ++ decimal2placesMessage
  else if ve.tag == "brzipcode" then ve.field ++ zipCodeMessage
  else if ve.tag == "iso8601date" then ve.field ++ isoMessage
  else ve.translated

/-! ## The dispatcher -/

/-- The shapes `Validate` distinguishes through reflect.TypeOf(body).Kind():
a nil interface (TypeOf returns nil and Kind panics), a slice, an array, a
struct, an interface, a pointer, or any other kind. -/
inductive GoValue (α : Type) where
  | nilInterface
  | slice : List α → GoValue α
  | array : List α → GoValue α
  | structVal : α → GoValue α
  | interfaceVal : α → GoValue α
  | ptrVal : α → GoValue α
  | otherKind

/-- What a call to Validate does: panic, or return the error value. -/
inductive ValidateOutcome where
  | panics
  | ok : Option ProblemJSON → ValidateOutcome
  deriving DecidableEq, Repr

/-- The element loop of the slice case: return the first non-nil problem. -/
def validateLoop {α : Type} (v : α → Option ProblemJSON) : List α → Option ProblemJSON
  | [] => none
  | e :: rest =>
    match v e with
    | some p => some p
    | none => validateLoop v rest

/-- Validate, over an abstract per-record checker `v` standing for
genericValidator.validate: nil panics at Kind(); an empty slice returns the
fixed problem; a non-empty slice runs the loop; struct, interface and
pointer kinds validate the value directly; every other kind falls through
to nil. -/
def Validate {α : Type} (v : α → Option ProblemJSON) : GoValue α → ValidateOutcome
  | .nilInterface => .panics
  | .slice es =>
    match es with
    | [] => .ok (some cannotBeEmptyArrayProblemJSON)
    | _ :: _ => .ok (validateLoop v es)
  | .array _ => .ok none
  | .structVal b => .ok (v b)
  | .interfaceVal b => .ok (v b)
  | .ptrVal b => .ok (v b)
  | .otherKind => .ok none

/-! ## Theorems -/

/-- When every element passes, the slice loop returns nil. -/
theorem validateLoop_eq_none {α : Type} (v : α → Option ProblemJSON) (es : List α)
    (h : ∀ e ∈ es, v e = none) : validateLoop v es = none := by
  induction es with
  | nil => rfl
  | cons e rest ih =>
    have he : v e = none := h e (List.mem_cons_self e rest)
    simp only [validateLoop, he]
    exact ih (fun x hx => h x (List.mem_cons_of_mem e hx))

/-- The slice loop returns the problem of the first failing element. -/
theorem validateLoop_first {α : Type} (v : α → Option ProblemJSON) :
    ∀ (es : List α) (i : Nat) (ei : α) (p : ProblemJSON),
      es[i]? = some ei →
      (∀ (j : Nat) (ej : α), j < i → es[j]? = some ej → v ej = none) →
      v ei = some p → validateLoop v es = some p := by
  intro es
  induction es with
  | nil => intro i ei p hi _ _; simp at hi
  | cons e rest ih =>
    intro i ei p hi hj hv
    match i with
    | 0 =>
      simp only [List.getElem?_cons_zero, Option.some.injEq] at hi
      subst hi
      simp only [validateLoop, hv]
    | i' + 1 =>
      have he : v e = none := hj 0 e (Nat.succ_pos i') (by simp)
      simp only [validateLoop, he]
      exact ih i' ei p (by simpa using hi)
        (fun j ej hlt hg => hj (j + 1) ej (Nat.succ_lt_succ hlt) (by simpa using hg)) hv

/-- C1: for every non-empty slice input, Validate validates the elements in
order and returns the violation result of the first element whose result is
non-empty; if every element passes, Validate returns no error (nil). -/
theorem spec_C1 {α : Type} (v : α → Option ProblemJSON) (es : List α) (h : es ≠ []) :
    ((∀ e ∈ es, v e = none) → Validate v (.slice es) = .ok none) ∧
    (∀ (i : Nat) (ei : α) (p : ProblemJSON), es[i]? = some ei →
      (∀ (j : Nat) (ej : α), j < i → es[j]? = some ej → v ej = none) →
      v ei = some p → Validate v (.slice es) = .ok (some p)) := by
  match es, h with
  | e :: rest, _ =>
    constructor
    · intro hall
      show ValidateOutcome.ok (validateLoop v (e :: rest)) = .ok none
      rw [validateLoop_eq_none v _ hall]
    · intro i ei p hi hj hv
      show ValidateOutcome.ok (validateLoop v (e :: rest)) = .ok (some p)
      rw [validateLoop_first v _ i ei p hi hj hv]

/-- Witness for C1: a concrete two-element slice whose elements all pass
yields nil. -/
theorem spec_C1_witness :
    Validate (fun n : Nat => if n < 10 then none else some { status := 400 })
      (.slice [3, 4]) = .ok none :=
  (spec_C1 (fun n : Nat => if n < 10 then none else some { status := 400 })
    [3, 4] (by decide)).1 (by decide)

/-- C2: for every empty slice input, regardless of element type, Validate
returns the fixed "Cannot be empty." bad-request (status 400) error, which
carries no invalid_params list. -/
theorem spec_C2 {α : Type} (v : α → Option ProblemJSON) :
    Validate v (.slice ([] : List α)) = .ok (some cannotBeEmptyArrayProblemJSON) ∧
    cannotBeEmptyArrayProblemJSON.status = 400 ∧
    cannotBeEmptyArrayProblemJSON.title = "Cannot be empty." ∧
    cannotBeEmptyArrayProblemJSON.invalidParams = none :=
  ⟨rfl, rfl, rfl, rfl⟩

/-- Before is irreflexive: an instant is not before itself. -/
theorem GoTime.before_self (t : GoTime) : t.before t = false := by
  simp [GoTime.before]

/-- C3: the date-gte predicate is true iff both the annotated field's string
and the named sibling field's string parse under some accepted layout and
the annotated instant is not before the sibling instant; in particular equal
instants pass (before is irreflexive) and a parse failure on either side
fails closed. -/
theorem spec_C3 (record : List (String × String)) (fv param : String) :
    (validateDatetimeGTE record fv param = true ↔
      ∃ t1 t2, parseToUTCTime fv = some t1 ∧
        parseToUTCTime (siblingString record param) = some t2 ∧
        t1.before t2 = false) ∧
    (∀ t : GoTime, t.before t = false) := by
  constructor
  · cases h1 : parseToUTCTime fv with
    | none => simp [validateDatetimeGTE, h1]
    | some t1 =>
      cases h2 : parseToUTCTime (siblingString record param) with
      | none => simp [validateDatetimeGTE, h1, h2]
      | some t2 => simp [validateDatetimeGTE, h1, h2, Bool.not_eq_true']
  · exact GoTime.before_self

/-- C8: a nil interface value panics inside Validate (Kind is called on the
nil reflect.Type), while other unrecognized input kinds return no error. -/
theorem spec_C8 {α : Type} (v : α → Option ProblemJSON) :
    Validate v (.nilInterface : GoValue α) = .panics ∧
    Validate v (.otherKind : GoValue α) = .ok none :=
  ⟨rfl, rfl⟩

/-- C9: a fixed-size array input returns no error unconditionally — the
switch has no Array case — and in particular an empty array does not
produce the empty-collection error. -/
theorem spec_C9 {α : Type} (v : α → Option ProblemJSON) (es : List α) :
    Validate v (.array es) = .ok none ∧
    Validate v (.array ([] : List α)) = .ok none :=
  ⟨rfl, rfl⟩

/-- C10: when the date-gte parameter names a field that does not exist on
the enclosing record, the lookup yields the invalid-value string, which
parses under no layout, so the predicate returns false for every annotated
value (and no panic occurs: the model is total here, as FieldByName and
Value.String are). -/
theorem spec_C10 (record : List (String × String)) (fv param : String)
    (h : record.find? (fun p => p.1 == param) = none) :
    validateDatetimeGTE record fv param = false := by
  have hs : siblingString record param = invalidValueString := by
    simp [siblingString, h]
  have hp : parseToUTCTime invalidValueString = none := by decide
  cases h1 : parseToUTCTime fv with
  | none => simp [validateDatetimeGTE, h1]
  | some t1 => simp [validateDatetimeGTE, h1, hs, hp]

/-- Witness for C10: an empty record has no field named Field1. -/
theorem spec_C10_witness :
    validateDatetimeGTE [] "2022-01-01" "Field1" = false :=
  spec_C10 [] "2022-01-01" "Field1" rfl

/-- Counterexample to C5 as stated: on a concrete required_without_all
violation the code synthesizes the "at least one of these fields are
required" message, not the "is required if none of ... are present"
template the claim gives. -/
theorem spec_C5_counterexample :
    translateReason [] []
        ⟨"required_without_all", "field2", "Field1 Field3", ""⟩ =
      "at least one of these fields are required: field2, Field1, Field3" ∧
    "at least one of these fields are required: field2, Field1, Field3" ≠
      "field2 is required if none of: Field1, Field3 are present" :=
  ⟨by decide, by decide⟩

/-- C5 (amended): for every violation whose rule name is
required_without_all, the translated reason is exactly "at least one of
these fields are required: <field>, <sibling1>, <sibling2>, …" — the
resolved field name first, then the comma-joined resolved sibling names. -/
theorem spec_C5_amended (messageErrors : List (String × String))
    (fields : List GoStructField) (ve : ValidationErrorView)
    (h : ve.tag = "required_without_all") :
    translateReason messageErrors fields ve =
      "at least one of these fields are required: " ++ ve.field ++ ", " ++
        goStringsJoin ", " (getJsonTagNameFromPropertyName fields ve.param) := by
  have hc : "custom".data.isPrefixOf ve.tag.data = false := by rw [h]; decide
  simp [translateReason, hc, h]

/-- Witness for C5 at a concrete violation. -/
theorem spec_C5_witness :
    translateReason [] [] ⟨"required_without_all", "f2", "A B", ""⟩ =
      "at least one of these fields are required: f2, A, B" := by
  rw [spec_C5_amended [] [] ⟨"required_without_all", "f2", "A B", ""⟩ rfl]
  decide

/-- Counterexample to C7 as stated: a field whose json tag is the omit
marker and whose param tag is "p1" resolves to "-", not to "p1" — the
marker does not fall through to the remaining metadata sources. -/
theorem spec_C7_counterexample :
    getJsonTagNameFromPropertyName [⟨"Field1", "-", "p1", ""⟩]
        "Field1" = ["-"] ∧
    (["-"] : List String) ≠ ["p1"] :=
  ⟨by decide, by decide⟩

/-- C7 (amended): during multi-field rule parameter resolution, a
serialization-name source holding the explicit omit marker is treated like
any other non-empty json tag value: it neither short-circuits to an empty
name nor falls through — the marker "-" itself becomes the resolved name. -/
theorem spec_C7_amended (fields : List GoStructField) (ident : String)
    (f : GoStructField)
    (hf : fields.find? (fun g => g.name == ident) = some f)
    (hj : f.jsonTag = "-") :
    resolveOne fields ident = "-" := by
  simp [resolveOne, hf, hj]

/-- Witness for C7 at a concrete field list. -/
theorem spec_C7_witness :
    resolveOne [⟨"Field1", "-", "p1", ""⟩] "Field1" = "-" :=
  spec_C7_amended [⟨"Field1", "-", "p1", ""⟩] "Field1"
    ⟨"Field1", "-", "p1", ""⟩ (by decide) rfl

/-- A decimal digit is not the dot character. -/
theorem isDigit_ne_dot {c : Char} (h : c.isDigit = true) : c ≠ '.' := by
  intro hc
  subst hc
  exact absurd h (by decide)

/-- The \d{2}$ tail of the decimal regex matches exactly the two-digit
strings. -/
theorem twoDigitsM_iff (cs : List Char) :
    twoDigitsM cs = true ↔
      ∃ c1 c2, c1.isDigit = true ∧ c2.isDigit = true ∧ cs = [c1, c2] := by
  constructor
  · intro h
    match cs with
    | [] => exact absurd h (by simp [twoDigitsM])
    | [c] => exact absurd h (by simp [twoDigitsM])
    | [c1, c2] =>
      simp only [twoDigitsM, Bool.and_eq_true] at h
      exact ⟨c1, c2, h.1, h.2, rfl⟩
    | c1 :: c2 :: c3 :: rest => exact absurd h (by simp [twoDigitsM])
  · rintro ⟨c1, c2, h1, h2, rfl⟩
    simp [twoDigitsM, h1, h2]

/-- The (\d*\.)?\d{2} alternative with the dot present matches exactly the
strings made of a digit run, one dot, and two digits. -/
theorem dottedMatch_iff (cs : List Char) :
    dottedMatch cs = true ↔
      ∃ ds c1 c2, (∀ c ∈ ds, c.isDigit = true) ∧ c1.isDigit = true ∧
        c2.isDigit = true ∧ cs = ds ++ '.' :: [c1, c2] := by
  induction cs with
  | nil =>
    constructor
    · intro h; exact absurd h (by simp [dottedMatch])
    · rintro ⟨ds, c1, c2, _, _, _, h⟩
      exact absurd h (by cases ds <;> simp)
  | cons c cs ih =>
    by_cases hdot : c = '.'
    · subst hdot
      rw [dottedMatch, if_pos (by decide), twoDigitsM_iff]
      constructor
      · rintro ⟨c1, c2, h1, h2, rfl⟩
        exact ⟨[], c1, c2, by simp, h1, h2, rfl⟩
      · rintro ⟨ds, c1, c2, hds, h1, h2, heq⟩
        match ds, heq with
        | [], heq =>
          simp only [List.nil_append, List.cons.injEq, true_and] at heq
          exact ⟨c1, c2, h1, h2, heq⟩
        | d :: ds', heq =>
          simp only [List.cons_append, List.cons.injEq] at heq
          have hd : d.isDigit = true := hds d (by simp)
          exact absurd heq.1.symm (isDigit_ne_dot hd)
    · have hbeq : (c == '.') = false := by
        cases hb : c == '.' with
        | false => rfl
        | true => exact absurd (eq_of_beq hb) hdot
      rw [dottedMatch, if_neg (by simp [hbeq]), Bool.and_eq_true, ih]
      constructor
      · rintro ⟨hc, ds, c1, c2, hds, h1, h2, rfl⟩
        refine ⟨c :: ds, c1, c2, ?_, h1, h2, rfl⟩
        intro x hx
        rcases List.mem_cons.1 hx with rfl | hx
        · exact hc
        · exact hds x hx
      · rintro ⟨ds, c1, c2, hds, h1, h2, heq⟩
        match ds, heq with
        | [], heq =>
          simp only [List.nil_append, List.cons.injEq] at heq
          exact absurd heq.1 hdot
        | d :: ds', heq =>
          simp only [List.cons_append, List.cons.injEq] at heq
          obtain ⟨rfl, hcs⟩ := heq
          exact ⟨hds c (by simp), ds', c1, c2,
            fun x hx => hds x (by simp [hx]), h1, h2, hcs⟩

/-- C6: the decimal-2dp rule passes exactly the strings that are two digits,
or a run of digits followed by a single dot and exactly two trailing digits
(no sign, no separators); "12.34" passes and "123.000" fails. -/
theorem spec_C6 :
    (∀ s : String, validDecimalValue s = true ↔
      ((∃ c1 c2, c1.isDigit = true ∧ c2.isDigit = true ∧ s.data = [c1, c2]) ∨
       (∃ ds c1 c2, (∀ c ∈ ds, c.isDigit = true) ∧ c1.isDigit = true ∧
         c2.isDigit = true ∧ s.data = ds ++ '.' :: [c1, c2]))) ∧
    validDecimalValue "12.34" = true ∧ validDecimalValue "123.000" = false := by
  refine ⟨?_, by decide, by decide⟩
  intro s
  unfold validDecimalValue decimalRegexMatch
  rw [Bool.or_eq_true, twoDigitsM_iff, dottedMatch_iff]

/-- Skipping layouts that fail to parse. -/
theorem findSome?_append_of_none {α β : Type} (f : α → Option β) :
    ∀ (pre rest : List α), (∀ m ∈ pre, f m = none) →
      (pre ++ rest).findSome? f = rest.findSome? f := by
  intro pre
  induction pre with
  | nil => intro rest _; rfl
  | cons a l ih =>
    intro rest h
    have ha : f a = none := h a (by simp)
    rw [List.cons_append, List.findSome?_cons, ha]
    exact ih rest (fun m hm => h m (by simp [hm]))

/-- A chunk other than the zone chunk never changes the zone offset. -/
theorem stepChunk_offset (ck : Chunk) (peek : Option Chunk) (cs cs' : List Char)
    (acc acc' : ParseAcc) (hck : ck ≠ Chunk.isoColonTZ)
    (h : stepChunk ck peek cs acc = some (cs', acc')) : acc'.offset = acc.offset := by
  cases ck <;> simp only [stepChunk] at h <;> repeat' split at h
  all_goals
    first
    | exact absurd rfl hck
    | exact Option.noConfusion h
    | (simp only [Option.some.injEq, Prod.mk.injEq] at h
       obtain ⟨h1, h2⟩ := h
       subst h2
       rfl)

/-- A layout without the zone chunk leaves the offset of the accumulator. -/
theorem runChunks_offset (chunks : List Chunk) :
    ∀ (cs : List Char) (acc acc' : ParseAcc), Chunk.isoColonTZ ∉ chunks →
      runChunks chunks cs acc = some acc' → acc'.offset = acc.offset := by
  induction chunks with
  | nil =>
    intro cs acc acc' _ h
    cases cs with
    | nil => simp only [runChunks, Option.some.injEq] at h; rw [h]
    | cons c cs0 => exact Option.noConfusion h
  | cons ck rest ih =>
    intro cs acc acc' hni h
    simp only [runChunks] at h
    cases hs : stepChunk ck rest.head? cs acc with
    | none => rw [hs] at h; exact Option.noConfusion h
    | some p =>
      rw [hs] at h
      have h1 : p.2.offset = acc.offset :=
        stepChunk_offset ck rest.head? cs p.1 acc p.2
          (fun he => hni (he ▸ List.mem_cons_self ck rest)) hs
      have h2 : acc'.offset = p.2.offset :=
        ih p.1 p.2 acc' (fun hm => hni (List.mem_cons_of_mem ck hm)) h
      rw [h2, h1]

/-- Counterexample to C4 as stated: the second layout is not a zone-less
"YYYY-MM-DDTHH:MM" — "2022-01-02T15:04" parses under no layout at all,
while the same text with a trailing literal Z parses (as UTC). -/
theorem spec_C4_counterexample :
    parseToUTCTime "2022-01-02T15:04" = none ∧
    parseToUTCTime "2022-01-02T15:04Z" = some ⟨1641135840, 0⟩ :=
  ⟨by decide, by decide⟩

/-- C4 (amended): parsing tries the nine layouts in exactly the source
order — RFC3339 with a zone chunk first, then "YYYY-MM-DDTHH:MMZ" with a
literal trailing Z (UTC assumed), then "YYYY-MM-DDTHH:MM:SSZ", then the
millisecond Z variant, then "YYYY-MM-DDTHH:MM:SS", then the three
space-separated variants, then bare "YYYY-MM-DD" — the first successful
layout wins, every layout after the first is zone-less, and a zone-less
parse keeps the UTC offset 0. -/
theorem spec_C4_amended :
    (layouts = [defaultFormat, minuteZFormat, DateTimeZeroFormat, MilisecondsFormat,
        secondsBareFormat, spaceMinuteFormat, spaceSecondFormat, spaceMilliFormat,
        dateOnlyFormat] ∧
      minuteZFormat = [Chunk.year4, Chunk.lit '-', Chunk.month2, Chunk.lit '-',
        Chunk.day2, Chunk.lit 'T', Chunk.hour12, Chunk.lit ':', Chunk.minute2,
        Chunk.lit 'Z']) ∧
    (∀ (s : String) (t : GoTime) (pre suf : List (List Chunk)) (l : List Chunk),
      layouts = pre ++ l :: suf → (∀ m ∈ pre, goTimeParse m s = none) →
      goTimeParse l s = some t → parseToUTCTime s = some t) ∧
    (∀ l ∈ layouts.drop 1, Chunk.isoColonTZ ∉ l) ∧
    (∀ (l : List Chunk) (cs : List Char) (acc : ParseAcc), Chunk.isoColonTZ ∉ l →
      runChunks l cs { } = some acc → acc.offset = 0) := by
  refine ⟨⟨rfl, rfl⟩, ?_, by decide, ?_⟩
  · intro s t pre suf l hlay hpre hl
    unfold parseToUTCTime
    rw [hlay, findSome?_append_of_none _ pre _ hpre, List.findSome?_cons, hl]
  · intro l cs acc hni h
    exact runChunks_offset l cs { } acc hni h

end GotagValidator
